import Mathlib

/-!
Web App source control resource (`azurerm/resource_arm_web_sourcecontrols.go`)

A shallow embedding of the four lifecycle functions of the resource
(`resourceArmWebSourceControlsCreate`, `...Read`, `...Update`, `...Delete`)
with explicit state passing:

* the Terraform resource data `d` is a record (`ResourceData`),
* the remote management service is a state machine over an arbitrary state
  type `σ`, given by the four client methods the code calls,
* every function returns the outcome, the resource data and remote state it
  ends with, and the list of remote calls it issued, in order.
-/

namespace SourceControls

/-! ## Go values -/

/-- A Go `error` value, identified by its message. -/
structure GoError where
  Error : String
  deriving DecidableEq, Repr

/-- What a call of one of the resource functions ends with: `return nil`,
`return err`, or a run-time crash (nil pointer dereference). -/
inductive Outcome where
  | ok
  | error (err : GoError)
  | crashed
  deriving DecidableEq, Repr

/-! ## SDK types (`web.SiteSourceControl`)

`SiteSourceControlProperties` is embedded in `SiteSourceControl` by pointer
(the code builds it with `&web.SiteSourceControlProperties{...}`), and every
field is a pointer (`&repoURL`, `*read.ID`, `resp.RepoURL != nil`); a nil
pointer is `none`. -/

/-- The SDK record `web.SiteSourceControlProperties`. -/
structure SiteSourceControlProperties where
  RepoURL : Option String := none
  Branch : Option String := none
  IsManualIntegration : Option Bool := none
  DeploymentRollbackEnabled : Option Bool := none
  IsMercurial : Option Bool := none
  deriving DecidableEq, Repr

/-- The SDK record `web.SiteSourceControl`. -/
structure SiteSourceControl where
  SiteSourceControlProperties : Option SiteSourceControlProperties := none
  ID : Option String := none
  Name : Option String := none
  Kind : Option String := none
  Type_ : Option String := none
  deriving DecidableEq, Repr

/-- The parsed identifier returned by `parseAzureResourceID`: the fields the
code reads, `id.ResourceGroup` and the map `id.Path`. -/
structure ResourceID where
  ResourceGroup : String
  Path : List (String × String)
  deriving DecidableEq, Repr

/-- Go map indexing `id.Path[key]`: the zero value `""` for a missing key. -/
def ResourceID.pathAt (id : ResourceID) (key : String) : String :=
  (id.Path.lookup key).getD ""

/-! ## Schema and resource data -/

/-- The four attributes declared in the `Schema` map of
`resourceArmWebSourceControls`. -/
inductive Key where
  | resource_group_name
  | app_service_name
  | repo_url
  | branch
  deriving DecidableEq, Repr

/-- One entry of the `Schema` map: the flags and the default the source sets.
Every attribute has `Type: schema.TypeString`; validation functions are not
part of the embedding. -/
structure Schema where
  Required : Bool := false
  ForceNew : Bool := false
  Optional : Bool := false
  Default : Option String := none
  deriving DecidableEq, Repr

/-- Modelled from the spec: `resourceGroupNameSchema()`, which is defined
outside this file; the configuration table gives `resource_group_name` as a
required string whose change forces recreation. -/
def resourceGroupNameSchema : Schema := { Required := true, ForceNew := true }

/-- The `Schema` map of `resourceArmWebSourceControls` (lines 21-41). -/
def resourceArmWebSourceControls : Key → Schema
  | .resource_group_name => resourceGroupNameSchema
  | .app_service_name => { Required := true, ForceNew := true }
  | .repo_url => { Required := true }
  | .branch => { Default := some "master", Optional := true }

/-- The resource data `d *schema.ResourceData`: the identifier (`""` when the
resource has none), the value of each attribute, `none` when neither the
configuration nor the state supplies one, and whether the data carries a
planned diff. The engine builds the data of Create and Update from the state
and the diff of the declared configuration; the data of Read and Delete,
and of an imported entity, is built from the state alone. -/
structure ResourceData where
  id : String := ""
  resource_group_name : Option String := none
  app_service_name : Option String := none
  repo_url : Option String := none
  branch : Option String := none
  hasDiff : Bool := false
  deriving DecidableEq, Repr

/-- The stored value of an attribute. -/
def ResourceData.attr (d : ResourceData) : Key → Option String
  | .resource_group_name => d.resource_group_name
  | .app_service_name => d.app_service_name
  | .repo_url => d.repo_url
  | .branch => d.branch

/-- `d.Get(key).(string)`: the supplied value; for an attribute without one,
the schema default when the data carries a diff (the diff of a configuration
that omits the attribute holds its default), and the zero value of a string
otherwise. -/
def ResourceData.Get (d : ResourceData) (key : Key) : String :=
  match d.attr key with
  | some value => value
  | none =>
    if d.hasDiff then ((resourceArmWebSourceControls key).Default).getD "" else ""

/-- `d.Set(key, value)`. -/
def ResourceData.Set (d : ResourceData) (key : Key) (value : String) : ResourceData :=
  match key with
  | .resource_group_name => { d with resource_group_name := some value }
  | .app_service_name => { d with app_service_name := some value }
  | .repo_url => { d with repo_url := some value }
  | .branch => { d with branch := some value }

/-- `d.Id()`. -/
def ResourceData.Id (d : ResourceData) : String := d.id

/-- `d.SetId(v)`. -/
def ResourceData.SetId (d : ResourceData) (v : String) : ResourceData :=
  { d with id := v }

/-! ## The remote client -/

/-- The four methods of `appServicesClient` the resource calls, as transitions
of a remote service with state `σ`; `φ` is the type of the future returned by
`CreateOrUpdateSourceControl`. An `error` result is a non-nil `err`. -/
structure AppServicesClient (σ φ : Type) where
  CreateOrUpdateSourceControl : σ → String → String → SiteSourceControl → Except GoError φ × σ
  WaitForCompletionRef : σ → φ → Option GoError × σ
  GetSourceControl : σ → String → String → Except GoError SiteSourceControl × σ
  DeleteSourceControl : σ → String → String → Option GoError × σ

/-- The `meta` argument (`*ArmClient`) together with the two functions the
code calls that are defined outside this file: `parseAzureResourceID` and the
`%q` verb of `fmt.Errorf`. -/
structure ArmClient (σ φ : Type) where
  appServicesClient : AppServicesClient σ φ
  parseAzureResourceID : String → Except GoError ResourceID
  quote : String → String

/-- A remote call issued through the client, with its arguments. -/
inductive Call (φ : Type) where
  | CreateOrUpdateSourceControl (resGroup appName : String) (envelope : SiteSourceControl)
  | WaitForCompletionRef (future : φ)
  | GetSourceControl (resGroup appName : String)
  | DeleteSourceControl (resGroup appName : String)
  deriving DecidableEq, Repr

/-- What a call of a resource function leaves behind. -/
structure Result (σ φ : Type) where
  outcome : Outcome
  d : ResourceData
  remote : σ
  calls : List (Call φ)

/-! ## The resource functions -/

/-- The request body built at lines 56-61. -/
def sourceControlsProperties (repoURL branch : String) : SiteSourceControl :=
  { SiteSourceControlProperties := some { RepoURL := some repoURL, Branch := some branch } }

/-- `resourceArmWebSourceControlsCreate` (lines 45-81). -/
def resourceArmWebSourceControlsCreate {σ φ : Type} (m : ArmClient σ φ)
    (d : ResourceData) (s : σ) : Result σ φ :=
  let client := m.appServicesClient
  let resGroup := d.Get .resource_group_name
  let appName := d.Get .app_service_name
  let repoURL := d.Get .repo_url
  let branch := d.Get .branch
  let c1 := Call.CreateOrUpdateSourceControl resGroup appName (sourceControlsProperties repoURL branch)
  match client.CreateOrUpdateSourceControl s resGroup appName (sourceControlsProperties repoURL branch) with
  | (.error err, s1) => ⟨.error err, d, s1, [c1]⟩
  | (.ok createFuture, s1) =>
    let c2 := Call.WaitForCompletionRef createFuture
    match client.WaitForCompletionRef s1 createFuture with
    | (some err, s2) => ⟨.error err, d, s2, [c1, c2]⟩
    | (none, s2) =>
      let c3 := Call.GetSourceControl resGroup appName
      match client.GetSourceControl s2 resGroup appName with
      | (.error err, s3) => ⟨.error err, d, s3, [c1, c2, c3]⟩
      | (.ok read, s3) =>
        match read.ID with
        | none => ⟨.crashed, d, s3, [c1, c2, c3]⟩
        | some id => ⟨.ok, d.SetId id, s3, [c1, c2, c3]⟩

/-- The error built by `fmt.Errorf` at line 97. -/
def readError {σ φ : Type} (m : ArmClient σ φ) (appServiceName resGroup : String) : GoError :=
  ⟨"Error making Read request on AzureRM Web Source Controls Web Site "
    ++ m.quote appServiceName ++ " in resource group " ++ m.quote resGroup⟩

/-- `resourceArmWebSourceControlsRead` (lines 83-110). -/
def resourceArmWebSourceControlsRead {σ φ : Type} (m : ArmClient σ φ)
    (d : ResourceData) (s : σ) : Result σ φ :=
  let client := m.appServicesClient
  match m.parseAzureResourceID d.Id with
  | .error err => ⟨.error err, d, s, []⟩
  | .ok id =>
    let resGroup := id.ResourceGroup
    let appServiceName := id.pathAt "sites"
    let c1 := Call.GetSourceControl resGroup appServiceName
    match client.GetSourceControl s resGroup appServiceName with
    | (.error _, s1) => ⟨.error (readError m appServiceName resGroup), d, s1, [c1]⟩
    | (.ok resp, s1) =>
      let d1 := d.Set .resource_group_name resGroup
      let d2 := d1.Set .app_service_name appServiceName
      match resp.SiteSourceControlProperties with
      | none => ⟨.crashed, d2, s1, [c1]⟩
      | some props =>
        let d3 := match props.RepoURL with
          | some repoURL => d2.Set .repo_url repoURL
          | none => d2
        let d4 := match props.Branch with
          | some branch => d3.Set .branch branch
          | none => d3
        ⟨.ok, d4, s1, [c1]⟩

/-- `resourceArmWebSourceControlsDelete` (lines 112-132). -/
def resourceArmWebSourceControlsDelete {σ φ : Type} (m : ArmClient σ φ)
    (d : ResourceData) (s : σ) : Result σ φ :=
  let client := m.appServicesClient
  match m.parseAzureResourceID d.Id with
  | .error Iderr => ⟨.error Iderr, d, s, []⟩
  | .ok id =>
    let resGroup := id.ResourceGroup
    let appServiceName := id.pathAt "sites"
    let c1 := Call.DeleteSourceControl resGroup appServiceName
    match client.DeleteSourceControl s resGroup appServiceName with
    | (some err, s1) => ⟨.error err, d, s1, [c1]⟩
    | (none, s1) => ⟨.ok, d, s1, [c1]⟩

/-- `resourceArmWebSourceControlsUpdate` (lines 134-140). -/
def resourceArmWebSourceControlsUpdate {σ φ : Type} (m : ArmClient σ φ)
    (d : ResourceData) (s : σ) : Result σ φ :=
  let r := resourceArmWebSourceControlsDelete m d s
  match r.outcome with
  | .ok =>
    let r2 := resourceArmWebSourceControlsCreate m r.d r.remote
    ⟨r2.outcome, r2.d, r2.remote, r.calls ++ r2.calls⟩
  | _ => r

/-- The specification of Update, in the spec's words: Delete of the current
identifier immediately followed by Create of the new configuration; Create is
attempted only when Delete succeeded, the first failure is the result. -/
def deleteThenCreate {σ φ : Type} (m : ArmClient σ φ)
    (d : ResourceData) (s : σ) : Result σ φ :=
  let del := resourceArmWebSourceControlsDelete m d s
  if del.outcome = .ok then
    let cre := resourceArmWebSourceControlsCreate m del.d del.remote
    { cre with calls := del.calls ++ cre.calls }
  else del

/-- The repository URL a response supplies: the promoted field
`resp.RepoURL`, absent when the pointer (or the embedded record) is nil. -/
def SiteSourceControl.suppliedRepoURL (resp : SiteSourceControl) : Option String :=
  resp.SiteSourceControlProperties.bind fun props => props.RepoURL

/-- The branch a response supplies: the promoted field `resp.Branch`. -/
def SiteSourceControl.suppliedBranch (resp : SiteSourceControl) : Option String :=
  resp.SiteSourceControlProperties.bind fun props => props.Branch

/-! ## Sequences of lifecycle operations -/

/-- The four lifecycle operations of the resource. -/
inductive Op where
  | Create
  | Read
  | Update
  | Delete
  deriving DecidableEq, Repr

/-- The function registered for each operation (lines 13-16). -/
def Op.run {σ φ : Type} (m : ArmClient σ φ) : Op → ResourceData → σ → Result σ φ
  | .Create => resourceArmWebSourceControlsCreate m
  | .Read => resourceArmWebSourceControlsRead m
  | .Update => resourceArmWebSourceControlsUpdate m
  | .Delete => resourceArmWebSourceControlsDelete m

/-- The declared configuration handed over by the engine with a request. -/
structure Config where
  resource_group_name : Option String := none
  app_service_name : Option String := none
  repo_url : Option String := none
  branch : Option String := none
  deriving DecidableEq, Repr

/-- The resource data the engine passes for a request: the identifier is the
persisted one; with a declared configuration the attributes are those of the
configuration and the data carries its diff, without one the data is the
persisted state alone. -/
def ResourceData.withConfig (d : ResourceData) : Option Config → ResourceData
  | none => { d with hasDiff := false }
  | some c =>
    { d with resource_group_name := c.resource_group_name,
             app_service_name := c.app_service_name,
             repo_url := c.repo_url,
             branch := c.branch,
             hasDiff := true }

/-- One invocation by the engine: the operation and the configuration it is
invoked with (`none` keeps the attributes of the persisted state). -/
structure Request where
  op : Op
  config : Option Config := none
  deriving DecidableEq, Repr

/-- The identifier in the response of the follow-up `GetSourceControl` of a
Create invoked with `d` on the remote state `s`, read off the remote service
itself: the create-or-update request for the configuration of `d`, the wait
on its future, then the read of the same resource group and app; `none` when
one of the three calls fails or the response carries no identifier. -/
def followUpIdentifier {σ φ : Type} (m : ArmClient σ φ) (d : ResourceData) (s : σ) :
    Option String :=
  match m.appServicesClient.CreateOrUpdateSourceControl s (d.Get .resource_group_name)
      (d.Get .app_service_name) (sourceControlsProperties (d.Get .repo_url) (d.Get .branch)) with
  | (.error _, _) => none
  | (.ok future, s1) =>
    match m.appServicesClient.WaitForCompletionRef s1 future with
    | (some _, _) => none
    | (none, s2) =>
      match m.appServicesClient.GetSourceControl s2 (d.Get .resource_group_name)
          (d.Get .app_service_name) with
      | (.error _, _) => none
      | (.ok read, _) => read.ID

/-- The identifier the remote service hands to the Create an operation
performs: Create performs it from the state it is invoked in, Update from the
state its Delete leaves; Read and Delete perform none. -/
def Op.followUpIdentifier {σ φ : Type} (m : ArmClient σ φ) :
    Op → ResourceData → σ → Option String
  | .Create, d, s => SourceControls.followUpIdentifier m d s
  | .Update, d, s =>
    SourceControls.followUpIdentifier m (resourceArmWebSourceControlsDelete m d s).d
      (resourceArmWebSourceControlsDelete m d s).remote
  | .Read, _, _ => none
  | .Delete, _, _ => none

/-- The entity state between operations, with its history: `created` says
that a Create (on its own or inside Update) has returned `nil`, and
`lastIdentifier` is the identifier the remote service handed to the most
recent such Create. -/
structure Entity (σ : Type) where
  d : ResourceData
  remote : σ
  created : Bool
  lastIdentifier : Option String

/-- Did this invocation complete a successful Create. -/
def completesCreate (op : Op) (o : Outcome) : Bool :=
  (op = .Create || op = .Update) && o = .ok

/-- One request applied to an entity: the registered function runs on the
data the engine passes; the history is that of the remote service. -/
def Entity.step {σ φ : Type} (m : ArmClient σ φ) (e : Entity σ) (r : Request) : Entity σ :=
  let res := (r.op.run m (e.d.withConfig r.config) e.remote : Result σ φ)
  if completesCreate r.op res.outcome then
    ⟨res.d, res.remote, true, r.op.followUpIdentifier m (e.d.withConfig r.config) e.remote⟩
  else
    ⟨res.d, res.remote, e.created, e.lastIdentifier⟩

/-- A sequence of requests applied in order. -/
def Entity.steps {σ φ : Type} (m : ArmClient σ φ) (e : Entity σ) (rs : List Request) : Entity σ :=
  rs.foldl (Entity.step m) e

/-- The absent state: no identifier, no attribute, no Create completed. -/
def Entity.absent {σ : Type} (s : σ) : Entity σ := ⟨{}, s, false, none⟩

/-- The history invariant: without a completed Create the identifier is unset
and no identifier was handed out; with one, the identifier is the one handed
to the most recent completed Create. -/
def Entity.Tracked {σ : Type} (e : Entity σ) : Prop :=
  (e.created = false → e.d.Id = "" ∧ e.lastIdentifier = none) ∧
  (e.created = true → ∃ id, e.lastIdentifier = some id ∧ e.d.Id = id)

/-! ## Test doubles

Concrete clients used to run the functions on explicit inputs. -/

/-- The replies a scripted remote service still has to give, per method, in
order; an exhausted queue answers with success (`GetSourceControl`: with
`404 Not Found`). -/
structure Script where
  createOrUpdate : List (Option GoError) := []
  wait : List (Option GoError) := []
  get : List (Except GoError SiteSourceControl) := []
  delete : List (Option GoError) := []

/-- The client of the scripted remote service; its futures are `Unit`. -/
def scriptedClient : AppServicesClient Script Unit where
  CreateOrUpdateSourceControl s _ _ _ :=
    match s.createOrUpdate with
    | some err :: rest => (.error err, { s with createOrUpdate := rest })
    | none :: rest => (.ok (), { s with createOrUpdate := rest })
    | [] => (.ok (), s)
  WaitForCompletionRef s _ :=
    match s.wait with
    | reply :: rest => (reply, { s with wait := rest })
    | [] => (none, s)
  GetSourceControl s _ _ :=
    match s.get with
    | reply :: rest => (reply, { s with get := rest })
    | [] => (.error ⟨"404 Not Found"⟩, s)
  DeleteSourceControl s _ _ :=
    match s.delete with
    | reply :: rest => (reply, { s with delete := rest })
    | [] => (none, s)

/-- The identifier a site's source control has in the examples. -/
def sourceControlID (resGroup appName : String) : String :=
  "/subscriptions/0/resourceGroups/" ++ resGroup ++ "/providers/Microsoft.Web/sites/"
    ++ appName ++ "/sourcecontrols/web"

/-- A remote service that stores the submitted descriptor per
(resource group, app) and returns it unchanged from `GetSourceControl`. -/
def echoClient : AppServicesClient (List ((String × String) × SiteSourceControl)) Unit where
  CreateOrUpdateSourceControl s resGroup appName envelope :=
    (.ok (), ((resGroup, appName), envelope) :: s)
  WaitForCompletionRef s _ := (none, s)
  GetSourceControl s resGroup appName :=
    match s.lookup (resGroup, appName) with
    | some stored => (.ok { stored with ID := some (sourceControlID resGroup appName) }, s)
    | none => (.error ⟨"404 Not Found"⟩, s)
  DeleteSourceControl s resGroup appName :=
    (none, s.filter fun entry => entry.1 != (resGroup, appName))

/-- A stand-in for `parseAzureResourceID` in the examples: it accepts the
identifier of the source control of site `app1` in resource group `rg1` and
rejects every other string. -/
def parseExample (id : String) : Except GoError ResourceID :=
  if id = "/subscriptions/0/resourceGroups/rg1/providers/Microsoft.Web/sites/app1/sourcecontrols/web" then
    .ok ⟨"rg1", [("providers", "Microsoft.Web"), ("sites", "app1"), ("sourcecontrols", "web")]⟩
  else
    .error ⟨"Cannot parse Azure ID"⟩

/-- A stand-in for the `%q` verb on the strings of the examples (none needs
escaping): the string in double quotes. -/
def quoteExample (s : String) : String := "\"" ++ s ++ "\""

/-- The input of the example for C1: a bound entity whose new configuration
changes repository and branch. -/
def updateExampleData : ResourceData :=
  { id := sourceControlID "rg1" "app1", resource_group_name := some "rg1",
    app_service_name := some "app1", repo_url := some "https://example.com/b.git",
    branch := some "dev" }

/-- The configuration of the Create examples. -/
def createExampleData : ResourceData :=
  { resource_group_name := some "rg1", app_service_name := some "app1",
    repo_url := some "https://example.com/r.git", hasDiff := true }

/-- The resource data of the Read examples: a bound entity. -/
def readExampleData : ResourceData :=
  { id := sourceControlID "rg1" "app1", resource_group_name := some "rg1",
    app_service_name := some "app1", repo_url := some "https://example.com/a.git",
    branch := some "master" }

/-- A response that supplies the branch `dev` and omits the repository URL. -/
def branchOnlyResponse : SiteSourceControl :=
  { SiteSourceControlProperties := some { Branch := some "dev" },
    ID := some (sourceControlID "rg1" "app1") }

/-- A response whose properties omit both the repository URL and the branch. -/
def emptyResponse : SiteSourceControl :=
  { SiteSourceControlProperties := some {}, ID := some (sourceControlID "rg1" "app1") }

/-- The configuration declared in the lifecycle examples. -/
def exampleConfig : Config :=
  { resource_group_name := some "rg1", app_service_name := some "app1",
    repo_url := some "https://example.com/r.git" }

/-- A response that echoes the example configuration under the identifier `id`. -/
def responseWithID (id : String) : SiteSourceControl :=
  { sourceControlsProperties "https://example.com/r.git" "master" with ID := some id }

/-- The `meta` argument over the scripted service. -/
def scriptedMeta : ArmClient Script Unit := ⟨scriptedClient, parseExample, quoteExample⟩

/-- The `meta` argument over the echoing service. -/
def echoMeta : ArmClient (List ((String × String) × SiteSourceControl)) Unit :=
  ⟨echoClient, parseExample, quoteExample⟩

/-! ## Shared lemmas -/

theorem delete_calls_only_delete {σ φ : Type} (m : ArmClient σ φ) (d : ResourceData) (s : σ) :
    ∀ c ∈ (resourceArmWebSourceControlsDelete m d s).calls,
      ∃ resGroup appName, c = Call.DeleteSourceControl resGroup appName := by
  intro c hc
  unfold resourceArmWebSourceControlsDelete at hc
  split at hc
  · simp at hc
  · simp only at hc
    split at hc <;> simp at hc <;> exact ⟨_, _, hc⟩

theorem delete_keeps_data {σ φ : Type} (m : ArmClient σ φ) (d : ResourceData) (s : σ) :
    (resourceArmWebSourceControlsDelete m d s).d = d := by
  unfold resourceArmWebSourceControlsDelete
  split
  · rfl
  · simp only
    split <;> rfl

theorem update_of_delete_ok {σ φ : Type} (m : ArmClient σ φ) (d : ResourceData) (s : σ)
    (h : (resourceArmWebSourceControlsDelete m d s).outcome = .ok) :
    resourceArmWebSourceControlsUpdate m d s =
      { resourceArmWebSourceControlsCreate m (resourceArmWebSourceControlsDelete m d s).d
          (resourceArmWebSourceControlsDelete m d s).remote with
        calls := (resourceArmWebSourceControlsDelete m d s).calls ++
          (resourceArmWebSourceControlsCreate m (resourceArmWebSourceControlsDelete m d s).d
            (resourceArmWebSourceControlsDelete m d s).remote).calls } := by
  simp only [resourceArmWebSourceControlsUpdate, h]

theorem update_of_delete_not_ok {σ φ : Type} (m : ArmClient σ φ) (d : ResourceData) (s : σ)
    (h : (resourceArmWebSourceControlsDelete m d s).outcome ≠ .ok) :
    resourceArmWebSourceControlsUpdate m d s = resourceArmWebSourceControlsDelete m d s := by
  unfold resourceArmWebSourceControlsUpdate
  cases hout : (resourceArmWebSourceControlsDelete m d s).outcome with
  | ok => exact absurd hout h
  | error err => simp only [hout]
  | crashed => simp only [hout]

theorem create_of_read {σ φ : Type} (m : ArmClient σ φ) (d : ResourceData) (s s1 s2 s3 : σ)
    (future : φ) (read : SiteSourceControl)
    (h1 : m.appServicesClient.CreateOrUpdateSourceControl s (d.Get .resource_group_name)
        (d.Get .app_service_name)
        (sourceControlsProperties (d.Get .repo_url) (d.Get .branch)) = (.ok future, s1))
    (h2 : m.appServicesClient.WaitForCompletionRef s1 future = (none, s2))
    (h3 : m.appServicesClient.GetSourceControl s2 (d.Get .resource_group_name)
        (d.Get .app_service_name) = (.ok read, s3)) :
    resourceArmWebSourceControlsCreate m d s =
      ⟨match read.ID with
        | some _ => .ok
        | none => .crashed,
       match read.ID with
        | some id => d.SetId id
        | none => d,
       s3,
       [.CreateOrUpdateSourceControl (d.Get .resource_group_name) (d.Get .app_service_name)
          (sourceControlsProperties (d.Get .repo_url) (d.Get .branch)),
        .WaitForCompletionRef future,
        .GetSourceControl (d.Get .resource_group_name) (d.Get .app_service_name)]⟩ := by
  simp only [resourceArmWebSourceControlsCreate, h1, h2, h3]
  cases read.ID <;> rfl

theorem create_id_of_not_ok {σ φ : Type} (m : ArmClient σ φ) (d : ResourceData) (s : σ)
    (h : (resourceArmWebSourceControlsCreate m d s).outcome ≠ .ok) :
    (resourceArmWebSourceControlsCreate m d s).d = d := by
  rcases h1 : m.appServicesClient.CreateOrUpdateSourceControl s (d.Get .resource_group_name)
      (d.Get .app_service_name)
      (sourceControlsProperties (d.Get .repo_url) (d.Get .branch)) with ⟨_ | future, s1⟩
  · simp only [resourceArmWebSourceControlsCreate, h1]
  · rcases h2 : m.appServicesClient.WaitForCompletionRef s1 future with ⟨_ | _, s2⟩
    · rcases h3 : m.appServicesClient.GetSourceControl s2 (d.Get .resource_group_name)
          (d.Get .app_service_name) with ⟨_ | read, s3⟩
      · simp only [resourceArmWebSourceControlsCreate, h1, h2, h3]
      · rw [create_of_read m d s s1 s2 s3 future read h1 h2 h3] at h ⊢
        cases hid : read.ID with
        | none => rfl
        | some id => simp [hid] at h
    · simp only [resourceArmWebSourceControlsCreate, h1, h2]

theorem read_keeps_id {σ φ : Type} (m : ArmClient σ φ) (d : ResourceData) (s : σ) :
    (resourceArmWebSourceControlsRead m d s).d.id = d.id := by
  unfold resourceArmWebSourceControlsRead
  simp only
  split
  · rfl
  · split
    · rfl
    · split
      · rfl
      · split <;> split <;> rfl

theorem read_of_response {σ φ : Type} (m : ArmClient σ φ) (d : ResourceData) (s s1 : σ)
    (id : ResourceID) (resp : SiteSourceControl)
    (hp : m.parseAzureResourceID d.Id = .ok id)
    (hg : m.appServicesClient.GetSourceControl s id.ResourceGroup (id.pathAt "sites")
      = (.ok resp, s1)) :
    (resourceArmWebSourceControlsRead m d s).d =
      { id := d.id,
        resource_group_name := some id.ResourceGroup,
        app_service_name := some (id.pathAt "sites"),
        repo_url := match resp.suppliedRepoURL with
          | some repoURL => some repoURL
          | none => d.repo_url,
        branch := match resp.suppliedBranch with
          | some branch => some branch
          | none => d.branch,
        hasDiff := d.hasDiff } ∧
    (resourceArmWebSourceControlsRead m d s).outcome =
      (match resp.SiteSourceControlProperties with
        | some _ => .ok
        | none => .crashed) ∧
    (resourceArmWebSourceControlsRead m d s).remote = s1 ∧
    (resourceArmWebSourceControlsRead m d s).calls =
      [.GetSourceControl id.ResourceGroup (id.pathAt "sites")] := by
  simp only [resourceArmWebSourceControlsRead, hp, hg]
  rcases resp with ⟨_ | ⟨_ | repoURL, _ | branch, _, _, _⟩, _, _, _, _⟩ <;>
    simp [SiteSourceControl.suppliedRepoURL, SiteSourceControl.suppliedBranch,
      ResourceData.Set]

theorem update_id_of_not_ok {σ φ : Type} (m : ArmClient σ φ) (d : ResourceData) (s : σ)
    (h : (resourceArmWebSourceControlsUpdate m d s).outcome ≠ .ok) :
    (resourceArmWebSourceControlsUpdate m d s).d = d := by
  by_cases hdel : (resourceArmWebSourceControlsDelete m d s).outcome = .ok
  · rw [update_of_delete_ok m d s hdel] at h ⊢
    simp only at h ⊢
    rw [create_id_of_not_ok m _ _ h, delete_keeps_data]
  · rw [update_of_delete_not_ok m d s hdel, delete_keeps_data]

theorem run_keeps_id {σ φ : Type} (m : ArmClient σ φ) (op : Op) (d : ResourceData) (s : σ)
    (h : op = .Read ∨ op = .Delete ∨ (op.run m d s).outcome ≠ .ok) :
    (op.run m d s).d.Id = d.Id := by
  cases op with
  | Read => exact read_keeps_id m d s
  | Delete => simp only [Op.run, delete_keeps_data]
  | Create =>
    rcases h with h | h | h
    · exact absurd h (by decide)
    · exact absurd h (by decide)
    · simp only [Op.run] at h ⊢
      rw [create_id_of_not_ok m d s h]
  | Update =>
    rcases h with h | h | h
    · exact absurd h (by decide)
    · exact absurd h (by decide)
    · simp only [Op.run] at h ⊢
      rw [update_id_of_not_ok m d s h]

theorem create_ok_identifier {σ φ : Type} (m : ArmClient σ φ) (d : ResourceData) (s : σ)
    (h : (resourceArmWebSourceControlsCreate m d s).outcome = .ok) :
    ∃ id, followUpIdentifier m d s = some id ∧
      (resourceArmWebSourceControlsCreate m d s).d.Id = id := by
  rcases h1 : m.appServicesClient.CreateOrUpdateSourceControl s (d.Get .resource_group_name)
      (d.Get .app_service_name)
      (sourceControlsProperties (d.Get .repo_url) (d.Get .branch)) with ⟨err | future, s1⟩
  · simp [resourceArmWebSourceControlsCreate, h1] at h
  · rcases h2 : m.appServicesClient.WaitForCompletionRef s1 future with ⟨_ | err, s2⟩
    · rcases h3 : m.appServicesClient.GetSourceControl s2 (d.Get .resource_group_name)
          (d.Get .app_service_name) with ⟨err | read, s3⟩
      · simp [resourceArmWebSourceControlsCreate, h1, h2, h3] at h
      · rw [create_of_read m d s s1 s2 s3 future read h1 h2 h3] at h ⊢
        cases hid : read.ID with
        | none => simp [hid] at h
        | some id =>
          refine ⟨id, ?_, rfl⟩
          simp only [followUpIdentifier, h1, h2, h3, hid]
    · simp [resourceArmWebSourceControlsCreate, h1, h2] at h

theorem update_ok_parts {σ φ : Type} (m : ArmClient σ φ) (d : ResourceData) (s : σ)
    (h : (resourceArmWebSourceControlsUpdate m d s).outcome = .ok) :
    (resourceArmWebSourceControlsDelete m d s).outcome = .ok ∧
    (resourceArmWebSourceControlsCreate m (resourceArmWebSourceControlsDelete m d s).d
      (resourceArmWebSourceControlsDelete m d s).remote).outcome = .ok ∧
    (resourceArmWebSourceControlsUpdate m d s).d =
      (resourceArmWebSourceControlsCreate m (resourceArmWebSourceControlsDelete m d s).d
        (resourceArmWebSourceControlsDelete m d s).remote).d := by
  by_cases hdel : (resourceArmWebSourceControlsDelete m d s).outcome = .ok
  · rw [update_of_delete_ok m d s hdel] at h ⊢
    exact ⟨hdel, h, rfl⟩
  · rw [update_of_delete_not_ok m d s hdel] at h
    exact absurd h hdel

theorem run_ok_identifier {σ φ : Type} (m : ArmClient σ φ) (op : Op) (d : ResourceData) (s : σ)
    (h : completesCreate op (op.run m d s).outcome = true) :
    ∃ id, op.followUpIdentifier m d s = some id ∧ (op.run m d s).d.Id = id := by
  cases op with
  | Create =>
    simp only [completesCreate, Op.run] at h
    exact create_ok_identifier m d s (by simpa using h)
  | Update =>
    simp only [completesCreate, Op.run] at h
    have hok : (resourceArmWebSourceControlsUpdate m d s).outcome = .ok := by simpa using h
    obtain ⟨-, hcre, hd⟩ := update_ok_parts m d s hok
    obtain ⟨id, hid, hset⟩ := create_ok_identifier m _ _ hcre
    exact ⟨id, hid, by simp only [Op.run, hd]; exact hset⟩
  | Read => simp [completesCreate] at h
  | Delete => simp [completesCreate] at h

theorem run_changes_id {σ φ : Type} (m : ArmClient σ φ) (op : Op) (d : ResourceData) (s : σ)
    (hop : op ≠ .Create) (h : (op.run m d s).d.Id ≠ d.Id) :
    op = .Update ∧ (resourceArmWebSourceControlsDelete m d s).outcome = .ok ∧
    (resourceArmWebSourceControlsCreate m (resourceArmWebSourceControlsDelete m d s).d
      (resourceArmWebSourceControlsDelete m d s).remote).outcome = .ok := by
  cases op with
  | Create => exact absurd rfl hop
  | Update =>
    by_cases hok : (resourceArmWebSourceControlsUpdate m d s).outcome = .ok
    · exact ⟨rfl, (update_ok_parts m d s hok).1, (update_ok_parts m d s hok).2.1⟩
    · exact absurd (run_keeps_id m .Update d s (Or.inr (Or.inr hok))) h
  | Read => exact absurd (run_keeps_id m .Read d s (Or.inl rfl)) h
  | Delete => exact absurd (run_keeps_id m .Delete d s (Or.inr (Or.inl rfl))) h

theorem withConfig_id (d : ResourceData) (c : Option Config) : (d.withConfig c).Id = d.Id := by
  cases c <;> rfl

theorem step_tracked {σ φ : Type} (m : ArmClient σ φ) (e : Entity σ) (r : Request)
    (h : e.Tracked) : (e.step m r).Tracked := by
  unfold Entity.step
  simp only
  split
  · next hc =>
    exact ⟨fun hf => by simp at hf, fun _ => run_ok_identifier m r.op _ _ hc⟩
  · next hc =>
    have hkeep : (r.op.run m (e.d.withConfig r.config) e.remote).d.Id = e.d.Id := by
      rw [← withConfig_id e.d r.config]
      apply run_keeps_id
      by_cases hok : (r.op.run m (e.d.withConfig r.config) e.remote).outcome = .ok
      · have hne : r.op ≠ .Create ∧ r.op ≠ .Update := by
          constructor <;> intro hop <;> apply hc <;> rw [hok] <;> simp [completesCreate, hop]
        cases hop : r.op with
        | Read => exact Or.inl rfl
        | Delete => exact Or.inr (Or.inl rfl)
        | Create => exact absurd hop hne.1
        | Update => exact absurd hop hne.2
      · exact Or.inr (Or.inr hok)
    refine ⟨fun hf => ?_, fun ht => ?_⟩
    · exact ⟨hkeep.trans (h.1 hf).1, (h.1 hf).2⟩
    · obtain ⟨id, hid, hset⟩ := h.2 ht
      exact ⟨id, hid, hkeep.trans hset⟩

theorem steps_tracked {σ φ : Type} (m : ArmClient σ φ) (rs : List Request) :
    ∀ e : Entity σ, e.Tracked → (e.steps m rs).Tracked := by
  induction rs with
  | nil => intro e h; exact h
  | cons r rs ih =>
    intro e h
    exact ih (e.step m r) (step_tracked m e r h)

theorem absent_tracked {σ : Type} (s : σ) : (Entity.absent s).Tracked :=
  ⟨fun _ => ⟨rfl, rfl⟩, fun h => by simp [Entity.absent] at h⟩

/-! ## Update is Delete followed by Create -/

/-- C1: Update equals Delete of the current identifier followed by Create of
the new configuration (same outcome, resource data, remote state and remote
calls in the same order); when Delete returns an error, Update returns that
error, is Delete alone, and every call it issued is a `DeleteSourceControl`
call (no create-or-update, wait or get). -/
theorem update_eq_delete_then_create {σ φ : Type} (m : ArmClient σ φ)
    (d : ResourceData) (s : σ) :
    resourceArmWebSourceControlsUpdate m d s = deleteThenCreate m d s ∧
    (∀ err, (resourceArmWebSourceControlsDelete m d s).outcome = .error err →
      (resourceArmWebSourceControlsUpdate m d s).outcome = .error err ∧
      resourceArmWebSourceControlsUpdate m d s = resourceArmWebSourceControlsDelete m d s ∧
      ∀ c ∈ (resourceArmWebSourceControlsUpdate m d s).calls,
        ∃ resGroup appName, c = Call.DeleteSourceControl resGroup appName) := by
  refine ⟨?_, ?_⟩
  · by_cases h : (resourceArmWebSourceControlsDelete m d s).outcome = .ok
    · rw [update_of_delete_ok m d s h]
      simp only [deleteThenCreate, h, if_true]
    · rw [update_of_delete_not_ok m d s h]
      simp only [deleteThenCreate, h, if_false]
  · intro err herr
    have hne : (resourceArmWebSourceControlsDelete m d s).outcome ≠ .ok := by
      rw [herr]; exact fun h => Outcome.noConfusion h
    rw [update_of_delete_not_ok m d s hne]
    exact ⟨herr, rfl, delete_calls_only_delete m d s⟩

/-- C1 on a concrete input: the remote delete fails with `409 Conflict`. -/
theorem update_eq_delete_then_create_witness :
    (resourceArmWebSourceControlsDelete scriptedMeta updateExampleData
        { delete := [some ⟨"409 Conflict"⟩] }).outcome = .error ⟨"409 Conflict"⟩ ∧
    (resourceArmWebSourceControlsUpdate scriptedMeta updateExampleData
        { delete := [some ⟨"409 Conflict"⟩] }).outcome = .error ⟨"409 Conflict"⟩ :=
  ⟨by decide,
   ((update_eq_delete_then_create scriptedMeta updateExampleData
      { delete := [some ⟨"409 Conflict"⟩] }).2 ⟨"409 Conflict"⟩ (by decide)).1⟩

/-! ## Malformed identifiers -/

/-- C2: when `parseAzureResourceID` rejects the persisted identifier with
`err`, Read and Delete each return `err`, issue no remote call, and leave
the resource data and the remote service as they were. -/
theorem malformed_id_no_remote_call {σ φ : Type} (m : ArmClient σ φ)
    (d : ResourceData) (s : σ) (err : GoError)
    (h : m.parseAzureResourceID d.Id = .error err) :
    resourceArmWebSourceControlsRead m d s = ⟨.error err, d, s, []⟩ ∧
    resourceArmWebSourceControlsDelete m d s = ⟨.error err, d, s, []⟩ := by
  constructor
  · simp only [resourceArmWebSourceControlsRead, h]
  · simp only [resourceArmWebSourceControlsDelete, h]

/-- C2 on a concrete input: the identifier `not-an-id` with a remote service
whose every reply is scripted. -/
theorem malformed_id_no_remote_call_witness :
    scriptedMeta.parseAzureResourceID (ResourceData.Id { id := "not-an-id" })
      = .error ⟨"Cannot parse Azure ID"⟩ ∧
    (resourceArmWebSourceControlsRead scriptedMeta { id := "not-an-id" } {}).calls = [] ∧
    (resourceArmWebSourceControlsDelete scriptedMeta { id := "not-an-id" } {}).calls = [] :=
  ⟨rfl,
   by rw [(malformed_id_no_remote_call scriptedMeta { id := "not-an-id" } {}
        ⟨"Cannot parse Azure ID"⟩ rfl).1],
   by rw [(malformed_id_no_remote_call scriptedMeta { id := "not-an-id" } {}
        ⟨"Cannot parse Azure ID"⟩ rfl).2]⟩

/-! ## Errors of the remote read -/

/-- C3: what the code does when `GetSourceControl` fails with `err` on a
parseable identifier: Read returns the error built by `fmt.Errorf` from the
app name and the resource group alone; `err` is not part of it, so two
different remote errors give the same returned error. -/
theorem read_error_drops_cause {σ φ : Type} (m : ArmClient σ φ)
    (d : ResourceData) (s s1 : σ) (id : ResourceID) (err : GoError)
    (hp : m.parseAzureResourceID d.Id = .ok id)
    (hg : m.appServicesClient.GetSourceControl s id.ResourceGroup (id.pathAt "sites")
      = (.error err, s1)) :
    (resourceArmWebSourceControlsRead m d s).outcome
      = .error (readError m (id.pathAt "sites") id.ResourceGroup) := by
  simp only [resourceArmWebSourceControlsRead, hp, hg]

/-- C3 on concrete inputs: a remote `404 Not Found` and a remote
`401 Unauthorized` give the same returned error, which names the app and the
resource group only. -/
theorem read_error_drops_cause_witness :
    (resourceArmWebSourceControlsRead scriptedMeta { id := sourceControlID "rg1" "app1" }
        { get := [.error ⟨"404 Not Found"⟩] }).outcome
      = .error ⟨"Error making Read request on AzureRM Web Source Controls Web Site \"app1\" in resource group \"rg1\""⟩ ∧
    (resourceArmWebSourceControlsRead scriptedMeta { id := sourceControlID "rg1" "app1" }
        { get := [.error ⟨"401 Unauthorized"⟩] }).outcome
      = (resourceArmWebSourceControlsRead scriptedMeta { id := sourceControlID "rg1" "app1" }
        { get := [.error ⟨"404 Not Found"⟩] }).outcome :=
  ⟨by decide,
   (read_error_drops_cause scriptedMeta { id := sourceControlID "rg1" "app1" }
      { get := [.error ⟨"401 Unauthorized"⟩] } {}
      ⟨"rg1", [("providers", "Microsoft.Web"), ("sites", "app1"), ("sourcecontrols", "web")]⟩
      ⟨"401 Unauthorized"⟩ rfl rfl).trans (by decide)⟩

/-! ## Create -/

/-- C4: when the create-or-update call, the wait, or the follow-up
`GetSourceControl` returns the error `err`, Create returns exactly `err`, the
failing call is the last remote call it issued, and the resource data is
unchanged (no identifier is set). -/
theorem create_error_unmodified {σ φ : Type} (m : ArmClient σ φ)
    (d : ResourceData) (s : σ) :
    (∀ err s1,
      m.appServicesClient.CreateOrUpdateSourceControl s (d.Get .resource_group_name)
          (d.Get .app_service_name)
          (sourceControlsProperties (d.Get .repo_url) (d.Get .branch)) = (.error err, s1) →
      resourceArmWebSourceControlsCreate m d s =
        ⟨.error err, d, s1,
          [.CreateOrUpdateSourceControl (d.Get .resource_group_name) (d.Get .app_service_name)
            (sourceControlsProperties (d.Get .repo_url) (d.Get .branch))]⟩) ∧
    (∀ err future s1 s2,
      m.appServicesClient.CreateOrUpdateSourceControl s (d.Get .resource_group_name)
          (d.Get .app_service_name)
          (sourceControlsProperties (d.Get .repo_url) (d.Get .branch)) = (.ok future, s1) →
      m.appServicesClient.WaitForCompletionRef s1 future = (some err, s2) →
      resourceArmWebSourceControlsCreate m d s =
        ⟨.error err, d, s2,
          [.CreateOrUpdateSourceControl (d.Get .resource_group_name) (d.Get .app_service_name)
            (sourceControlsProperties (d.Get .repo_url) (d.Get .branch)),
           .WaitForCompletionRef future]⟩) ∧
    (∀ err future s1 s2 s3,
      m.appServicesClient.CreateOrUpdateSourceControl s (d.Get .resource_group_name)
          (d.Get .app_service_name)
          (sourceControlsProperties (d.Get .repo_url) (d.Get .branch)) = (.ok future, s1) →
      m.appServicesClient.WaitForCompletionRef s1 future = (none, s2) →
      m.appServicesClient.GetSourceControl s2 (d.Get .resource_group_name)
          (d.Get .app_service_name) = (.error err, s3) →
      resourceArmWebSourceControlsCreate m d s =
        ⟨.error err, d, s3,
          [.CreateOrUpdateSourceControl (d.Get .resource_group_name) (d.Get .app_service_name)
            (sourceControlsProperties (d.Get .repo_url) (d.Get .branch)),
           .WaitForCompletionRef future,
           .GetSourceControl (d.Get .resource_group_name) (d.Get .app_service_name)]⟩) := by
  refine ⟨?_, ?_, ?_⟩
  · intro err s1 h1
    simp only [resourceArmWebSourceControlsCreate, h1]
  · intro err future s1 s2 h1 h2
    simp only [resourceArmWebSourceControlsCreate, h1, h2]
  · intro err future s1 s2 s3 h1 h2 h3
    simp only [resourceArmWebSourceControlsCreate, h1, h2, h3]

/-- C4 on concrete inputs: the create-or-update call fails with `500`, the
wait fails with `timeout`, the follow-up read fails with `404`. -/
theorem create_error_unmodified_witness :
    resourceArmWebSourceControlsCreate scriptedMeta createExampleData
        { createOrUpdate := [some ⟨"500"⟩] } =
      ⟨.error ⟨"500"⟩, createExampleData, {},
        [.CreateOrUpdateSourceControl "rg1" "app1"
          (sourceControlsProperties "https://example.com/r.git" "master")]⟩ ∧
    resourceArmWebSourceControlsCreate scriptedMeta createExampleData
        { wait := [some ⟨"timeout"⟩] } =
      ⟨.error ⟨"timeout"⟩, createExampleData, {},
        [.CreateOrUpdateSourceControl "rg1" "app1"
          (sourceControlsProperties "https://example.com/r.git" "master"),
         .WaitForCompletionRef ()]⟩ ∧
    resourceArmWebSourceControlsCreate scriptedMeta createExampleData
        { get := [.error ⟨"404"⟩] } =
      ⟨.error ⟨"404"⟩, createExampleData, {},
        [.CreateOrUpdateSourceControl "rg1" "app1"
          (sourceControlsProperties "https://example.com/r.git" "master"),
         .WaitForCompletionRef (),
         .GetSourceControl "rg1" "app1"]⟩ :=
  ⟨(create_error_unmodified scriptedMeta createExampleData
      { createOrUpdate := [some ⟨"500"⟩] }).1 ⟨"500"⟩ {} rfl,
   (create_error_unmodified scriptedMeta createExampleData
      { wait := [some ⟨"timeout"⟩] }).2.1 ⟨"timeout"⟩ () { wait := [some ⟨"timeout"⟩] } {} rfl rfl,
   (create_error_unmodified scriptedMeta createExampleData
      { get := [.error ⟨"404"⟩] }).2.2 ⟨"404"⟩ () { get := [.error ⟨"404"⟩] }
        { get := [.error ⟨"404"⟩] } {} rfl rfl rfl⟩

/-- C5: the code at a follow-up read whose response carries no identifier
(`ID` is nil) after a successful create-or-update and wait: `*read.ID`
dereferences a nil pointer, so Create neither returns success nor sets the
identifier; with the identifier present in the same response it does both. -/
theorem create_crashes_on_missing_id :
    (resourceArmWebSourceControlsCreate scriptedMeta createExampleData
        { get := [.ok (sourceControlsProperties "https://example.com/r.git" "master")] })
      = ⟨.crashed, createExampleData, {},
          [.CreateOrUpdateSourceControl "rg1" "app1"
            (sourceControlsProperties "https://example.com/r.git" "master"),
           .WaitForCompletionRef (),
           .GetSourceControl "rg1" "app1"]⟩ ∧
    (resourceArmWebSourceControlsCreate scriptedMeta createExampleData
        { get := [.ok { sourceControlsProperties "https://example.com/r.git" "master" with
            ID := some (sourceControlID "rg1" "app1") }] })
      = ⟨.ok, createExampleData.SetId (sourceControlID "rg1" "app1"), {},
          [.CreateOrUpdateSourceControl "rg1" "app1"
            (sourceControlsProperties "https://example.com/r.git" "master"),
           .WaitForCompletionRef (),
           .GetSourceControl "rg1" "app1"]⟩ :=
  ⟨rfl, rfl⟩

/-! ## Read -/

/-- C6: on a parseable identifier and a successful `GetSourceControl`, a
repository URL (respectively branch) the response omits leaves the local
`repo_url` (respectively `branch`) as it was before the Read, and one the
response supplies becomes the local value. -/
theorem read_lenient_merge {σ φ : Type} (m : ArmClient σ φ) (d : ResourceData) (s s1 : σ)
    (id : ResourceID) (resp : SiteSourceControl)
    (hp : m.parseAzureResourceID d.Id = .ok id)
    (hg : m.appServicesClient.GetSourceControl s id.ResourceGroup (id.pathAt "sites")
      = (.ok resp, s1)) :
    (resp.suppliedRepoURL = none →
      (resourceArmWebSourceControlsRead m d s).d.repo_url = d.repo_url) ∧
    (∀ repoURL, resp.suppliedRepoURL = some repoURL →
      (resourceArmWebSourceControlsRead m d s).d.repo_url = some repoURL ∧
      (resourceArmWebSourceControlsRead m d s).d.Get .repo_url = repoURL) ∧
    (resp.suppliedBranch = none →
      (resourceArmWebSourceControlsRead m d s).d.branch = d.branch) ∧
    (∀ branch, resp.suppliedBranch = some branch →
      (resourceArmWebSourceControlsRead m d s).d.branch = some branch ∧
      (resourceArmWebSourceControlsRead m d s).d.Get .branch = branch) := by
  have h := (read_of_response m d s s1 id resp hp hg).1
  refine ⟨?_, ?_, ?_, ?_⟩
  · intro h0; rw [h]; simp only [h0]
  · intro v h0; rw [h]; simp [h0, ResourceData.Get, ResourceData.attr]
  · intro h0; rw [h]; simp only [h0]
  · intro v h0; rw [h]; simp [h0, ResourceData.Get, ResourceData.attr]

/-- C6 on a concrete input: the response supplies a branch and omits the
repository URL. -/
theorem read_lenient_merge_witness :
    (resourceArmWebSourceControlsRead scriptedMeta readExampleData
        { get := [.ok branchOnlyResponse] }).d.repo_url = some "https://example.com/a.git" ∧
    (resourceArmWebSourceControlsRead scriptedMeta readExampleData
        { get := [.ok branchOnlyResponse] }).d.branch = some "dev" :=
  ⟨((read_lenient_merge scriptedMeta readExampleData { get := [.ok branchOnlyResponse] } {}
      ⟨"rg1", [("providers", "Microsoft.Web"), ("sites", "app1"), ("sourcecontrols", "web")]⟩
      branchOnlyResponse rfl rfl).1 rfl),
   ((read_lenient_merge scriptedMeta readExampleData { get := [.ok branchOnlyResponse] } {}
      ⟨"rg1", [("providers", "Microsoft.Web"), ("sites", "app1"), ("sourcecontrols", "web")]⟩
      branchOnlyResponse rfl rfl).2.2.2 "dev" rfl).1⟩

/-- C7: Create followed by Read against an echoing remote service. When the
create-or-update call and the wait succeed, the follow-up read returns an
identifier that parses back to the resource group and app name supplied to
Create, and the `GetSourceControl` issued by Read returns the properties
Create submitted, then Create succeeds, Read succeeds, and the local
`repo_url`, `branch`, `resource_group_name` and `app_service_name` equal the
values supplied to Create. -/
theorem create_read_round_trip {σ φ : Type} (m : ArmClient σ φ) (d : ResourceData)
    (s s1 s2 s3 s4 : σ) (future : φ) (read resp : SiteSourceControl) (remoteID : String)
    (id : ResourceID)
    (h1 : m.appServicesClient.CreateOrUpdateSourceControl s (d.Get .resource_group_name)
        (d.Get .app_service_name)
        (sourceControlsProperties (d.Get .repo_url) (d.Get .branch)) = (.ok future, s1))
    (h2 : m.appServicesClient.WaitForCompletionRef s1 future = (none, s2))
    (h3 : m.appServicesClient.GetSourceControl s2 (d.Get .resource_group_name)
        (d.Get .app_service_name) = (.ok read, s3))
    (hid : read.ID = some remoteID)
    (hp : m.parseAzureResourceID remoteID = .ok id)
    (hrg : id.ResourceGroup = d.Get .resource_group_name)
    (happ : id.pathAt "sites" = d.Get .app_service_name)
    (hg : m.appServicesClient.GetSourceControl s3 (d.Get .resource_group_name)
        (d.Get .app_service_name) = (.ok resp, s4))
    (hecho : resp.SiteSourceControlProperties =
      (sourceControlsProperties (d.Get .repo_url) (d.Get .branch)).SiteSourceControlProperties) :
    (resourceArmWebSourceControlsCreate m d s).outcome = .ok ∧
    (resourceArmWebSourceControlsRead m (resourceArmWebSourceControlsCreate m d s).d
      (resourceArmWebSourceControlsCreate m d s).remote).outcome = .ok ∧
    (resourceArmWebSourceControlsRead m (resourceArmWebSourceControlsCreate m d s).d
      (resourceArmWebSourceControlsCreate m d s).remote).d.Get .repo_url = d.Get .repo_url ∧
    (resourceArmWebSourceControlsRead m (resourceArmWebSourceControlsCreate m d s).d
      (resourceArmWebSourceControlsCreate m d s).remote).d.Get .branch = d.Get .branch ∧
    (resourceArmWebSourceControlsRead m (resourceArmWebSourceControlsCreate m d s).d
      (resourceArmWebSourceControlsCreate m d s).remote).d.Get .resource_group_name
        = d.Get .resource_group_name ∧
    (resourceArmWebSourceControlsRead m (resourceArmWebSourceControlsCreate m d s).d
      (resourceArmWebSourceControlsCreate m d s).remote).d.Get .app_service_name
        = d.Get .app_service_name := by
  rw [create_of_read m d s s1 s2 s3 future read h1 h2 h3]
  simp only [hid]
  rw [← hrg, ← happ] at hg
  have hp2 : m.parseAzureResourceID (d.SetId remoteID).Id = .ok id := hp
  obtain ⟨hd, ho, -, -⟩ := read_of_response m (d.SetId remoteID) s3 s4 id resp hp2 hg
  refine ⟨trivial, ?_, ?_, ?_, ?_, ?_⟩
  · rw [ho, hecho]; rfl
  · rw [hd]
    simp [SiteSourceControl.suppliedRepoURL, hecho, sourceControlsProperties,
      ResourceData.Get, ResourceData.attr]
  · rw [hd]
    simp [SiteSourceControl.suppliedBranch, hecho, sourceControlsProperties,
      ResourceData.Get, ResourceData.attr]
  · rw [hd, ← hrg]
    simp [ResourceData.Get, ResourceData.attr]
  · rw [hd, ← happ]
    simp [ResourceData.Get, ResourceData.attr]

/-- C7 on a concrete input: the echoing service, starting empty, with the
configuration `rg1`, `app1`, `https://example.com/r.git` and no branch. -/
theorem create_read_round_trip_witness :
    (resourceArmWebSourceControlsCreate echoMeta createExampleData []).outcome = .ok ∧
    (resourceArmWebSourceControlsRead echoMeta
      (resourceArmWebSourceControlsCreate echoMeta createExampleData []).d
      (resourceArmWebSourceControlsCreate echoMeta createExampleData []).remote).outcome = .ok ∧
    (resourceArmWebSourceControlsRead echoMeta
      (resourceArmWebSourceControlsCreate echoMeta createExampleData []).d
      (resourceArmWebSourceControlsCreate echoMeta createExampleData []).remote).d.Get .repo_url
        = "https://example.com/r.git" ∧
    (resourceArmWebSourceControlsRead echoMeta
      (resourceArmWebSourceControlsCreate echoMeta createExampleData []).d
      (resourceArmWebSourceControlsCreate echoMeta createExampleData []).remote).d.Get .branch
        = "master" :=
  have h := create_read_round_trip echoMeta createExampleData []
    [(("rg1", "app1"), sourceControlsProperties "https://example.com/r.git" "master")]
    [(("rg1", "app1"), sourceControlsProperties "https://example.com/r.git" "master")]
    [(("rg1", "app1"), sourceControlsProperties "https://example.com/r.git" "master")]
    [(("rg1", "app1"), sourceControlsProperties "https://example.com/r.git" "master")]
    () (responseWithID (sourceControlID "rg1" "app1"))
    (responseWithID (sourceControlID "rg1" "app1")) (sourceControlID "rg1" "app1")
    ⟨"rg1", [("providers", "Microsoft.Web"), ("sites", "app1"), ("sourcecontrols", "web")]⟩
    rfl rfl rfl rfl rfl rfl rfl rfl rfl
  ⟨h.1, h.2.1, h.2.2.1, h.2.2.2.1⟩

/-- C9, as stated, fails: on an entity that holds only its identifier (as
after an import), a Read whose response omits both the repository URL and
the branch succeeds and changes the local state: it stores the resource
group and the app name parsed from the identifier. -/
theorem read_all_omitted_changes_state :
    emptyResponse.suppliedRepoURL = none ∧ emptyResponse.suppliedBranch = none ∧
    (resourceArmWebSourceControlsRead scriptedMeta { id := sourceControlID "rg1" "app1" }
        { get := [.ok emptyResponse] }).outcome = .ok ∧
    (resourceArmWebSourceControlsRead scriptedMeta { id := sourceControlID "rg1" "app1" }
        { get := [.ok emptyResponse] }).d
      = { id := sourceControlID "rg1" "app1", resource_group_name := some "rg1",
          app_service_name := some "app1" } ∧
    (resourceArmWebSourceControlsRead scriptedMeta { id := sourceControlID "rg1" "app1" }
        { get := [.ok emptyResponse] }).d ≠ { id := sourceControlID "rg1" "app1" } := by
  decide

/-- C9, amended: on a parseable identifier, a Read whose response omits both
the repository URL and the branch leaves the identifier, `repo_url` and
`branch` as they were and sets `resource_group_name` and `app_service_name`
to the values parsed from the identifier; a second such Read (from any remote
state, with any response that omits both) leaves the local state of the first
unchanged. -/
theorem read_all_omitted_idempotent {σ φ : Type} (m : ArmClient σ φ) (d : ResourceData)
    (s s1 t t1 : σ) (id : ResourceID) (resp resp2 : SiteSourceControl)
    (hp : m.parseAzureResourceID d.Id = .ok id)
    (hg : m.appServicesClient.GetSourceControl s id.ResourceGroup (id.pathAt "sites")
      = (.ok resp, s1))
    (hurl : resp.suppliedRepoURL = none) (hbranch : resp.suppliedBranch = none)
    (hg2 : m.appServicesClient.GetSourceControl t id.ResourceGroup (id.pathAt "sites")
      = (.ok resp2, t1))
    (hurl2 : resp2.suppliedRepoURL = none) (hbranch2 : resp2.suppliedBranch = none) :
    (resourceArmWebSourceControlsRead m d s).d =
      { d with resource_group_name := some id.ResourceGroup,
               app_service_name := some (id.pathAt "sites") } ∧
    (resourceArmWebSourceControlsRead m (resourceArmWebSourceControlsRead m d s).d t).d =
      (resourceArmWebSourceControlsRead m d s).d := by
  have h1 := (read_of_response m d s s1 id resp hp hg).1
  simp only [hurl, hbranch] at h1
  have hp2 : m.parseAzureResourceID (resourceArmWebSourceControlsRead m d s).d.Id = .ok id := by
    rw [ResourceData.Id, read_keeps_id]; exact hp
  have h2 := (read_of_response m _ t t1 id resp2 hp2 hg2).1
  simp only [hurl2, hbranch2] at h2
  refine ⟨h1, ?_⟩
  rw [h2, h1]

/-- C9 amended, on a concrete input: two Reads of a bound entity, each
answered with properties that supply neither field. -/
theorem read_all_omitted_idempotent_witness :
    (resourceArmWebSourceControlsRead scriptedMeta readExampleData
        { get := [.ok emptyResponse] }).d = readExampleData ∧
    (resourceArmWebSourceControlsRead scriptedMeta
        (resourceArmWebSourceControlsRead scriptedMeta readExampleData
          { get := [.ok emptyResponse] }).d { get := [.ok emptyResponse] }).d
      = (resourceArmWebSourceControlsRead scriptedMeta readExampleData
          { get := [.ok emptyResponse] }).d :=
  have h := read_all_omitted_idempotent scriptedMeta readExampleData
    { get := [.ok emptyResponse] } {} { get := [.ok emptyResponse] } {}
    ⟨"rg1", [("providers", "Microsoft.Web"), ("sites", "app1"), ("sourcecontrols", "web")]⟩
    emptyResponse emptyResponse rfl rfl rfl rfl rfl rfl rfl
  ⟨h.1.trans (by decide), h.2⟩

/-! ## The default branch -/

/-- C10: for a configuration that supplies resource group, app name and
repository URL but no branch (the data Create receives carries its diff), the
branch read from the configuration is the
schema default `master`: the create-or-update request, the first remote call
Create issues, carries exactly that repository URL and the branch `master`,
and the branch read back from the resource data after Create is `master`.
With a branch supplied, the request carries the supplied branch and that is
the value read back. -/
theorem create_branch_default {σ φ : Type} (m : ArmClient σ φ) (s : σ)
    (id resGroup appName repoURL : String) :
    ((resourceArmWebSourceControls .branch).Default = some "master" ∧
     ResourceData.Get ⟨id, some resGroup, some appName, some repoURL, none, true⟩ .branch = "master" ∧
     (resourceArmWebSourceControlsCreate m
        ⟨id, some resGroup, some appName, some repoURL, none, true⟩ s).calls.head? =
      some (.CreateOrUpdateSourceControl resGroup appName
        ⟨some ⟨some repoURL, some "master", none, none, none⟩, none, none, none, none⟩) ∧
     (resourceArmWebSourceControlsCreate m
        ⟨id, some resGroup, some appName, some repoURL, none, true⟩ s).d.Get .branch = "master") ∧
    (∀ branch : String,
     ResourceData.Get ⟨id, some resGroup, some appName, some repoURL, some branch, true⟩ .branch
        = branch ∧
     (resourceArmWebSourceControlsCreate m
        ⟨id, some resGroup, some appName, some repoURL, some branch, true⟩ s).calls.head? =
      some (.CreateOrUpdateSourceControl resGroup appName
        ⟨some ⟨some repoURL, some branch, none, none, none⟩, none, none, none, none⟩) ∧
     (resourceArmWebSourceControlsCreate m
        ⟨id, some resGroup, some appName, some repoURL, some branch, true⟩ s).d.Get .branch
        = branch) := by
  have key : ∀ (d : ResourceData),
      (resourceArmWebSourceControlsCreate m d s).calls.head? =
        some (.CreateOrUpdateSourceControl (d.Get .resource_group_name)
          (d.Get .app_service_name)
          (sourceControlsProperties (d.Get .repo_url) (d.Get .branch))) ∧
      (resourceArmWebSourceControlsCreate m d s).d.branch = d.branch ∧
      (resourceArmWebSourceControlsCreate m d s).d.hasDiff = d.hasDiff := by
    intro d
    unfold resourceArmWebSourceControlsCreate
    simp only
    split
    · exact ⟨rfl, rfl, rfl⟩
    · split
      · exact ⟨rfl, rfl, rfl⟩
      · split
        · exact ⟨rfl, rfl, rfl⟩
        · split <;> exact ⟨rfl, rfl, rfl⟩
  refine ⟨⟨rfl, rfl, ?_, ?_⟩, fun branch => ⟨rfl, ?_, ?_⟩⟩
  · rw [(key _).1]; rfl
  · simp only [ResourceData.Get, ResourceData.attr, (key _).2.1, (key _).2.2]; rfl
  · rw [(key _).1]; rfl
  · simp only [ResourceData.Get, ResourceData.attr, (key _).2.1]

/-! ## The identifier over the lifecycle -/

/-- C8, as stated, fails: a successful Create does not always leave the
identifier set. A Create from the absent state whose follow-up read returns
the empty identifier completes successfully and the identifier stays unset;
and after a Create that set the identifier, an Update whose follow-up read
returns the empty identifier succeeds and leaves it unset again. -/
theorem remote_id_claim_fails :
    ((Entity.steps scriptedMeta (Entity.absent { get := [.ok (responseWithID "")] })
        [⟨.Create, some exampleConfig⟩]).created = true ∧
     (Entity.steps scriptedMeta (Entity.absent { get := [.ok (responseWithID "")] })
        [⟨.Create, some exampleConfig⟩]).d.Id = "") ∧
    ((Entity.steps scriptedMeta
        (Entity.absent { get := [.ok (responseWithID (sourceControlID "rg1" "app1")),
                                 .ok (responseWithID "")] })
        [⟨.Create, some exampleConfig⟩]).d.Id = sourceControlID "rg1" "app1" ∧
     (Entity.steps scriptedMeta
        (Entity.absent { get := [.ok (responseWithID (sourceControlID "rg1" "app1")),
                                 .ok (responseWithID "")] })
        [⟨.Create, some exampleConfig⟩, ⟨.Update, some exampleConfig⟩]).created = true ∧
     (Entity.steps scriptedMeta
        (Entity.absent { get := [.ok (responseWithID (sourceControlID "rg1" "app1")),
                                 .ok (responseWithID "")] })
        [⟨.Create, some exampleConfig⟩, ⟨.Update, some exampleConfig⟩]).d.Id = "") := by
  decide

/-- C8, amended: in every state reached from the absent state by a sequence
of Create, Read, Update and Delete requests, the identifier is unset when no
Create (on its own or inside Update) has returned success, and otherwise
equals the identifier returned by the follow-up read of the most recent such
Create; so it is set exactly when a Create has succeeded and the most recent
one was handed a non-empty identifier. A Create that returns success stores
the identifier of its follow-up read. Read, Delete and every Create or Update
that does not return success leave the identifier unchanged; an operation
other than Create changes it only by deleting and recreating: it is an
Update whose Delete and whose Create both return success. -/
theorem remote_id_lifecycle {σ φ : Type} (m : ArmClient σ φ) (s0 : σ) (rs : List Request) :
    ((Entity.steps m (Entity.absent s0) rs).created = false →
      (Entity.steps m (Entity.absent s0) rs).d.Id = "") ∧
    ((Entity.steps m (Entity.absent s0) rs).created = true →
      ∃ id, (Entity.steps m (Entity.absent s0) rs).lastIdentifier = some id ∧
        (Entity.steps m (Entity.absent s0) rs).d.Id = id) ∧
    ((Entity.steps m (Entity.absent s0) rs).d.Id ≠ "" ↔
      ((Entity.steps m (Entity.absent s0) rs).created = true ∧
       ∃ id, (Entity.steps m (Entity.absent s0) rs).lastIdentifier = some id ∧ id ≠ "")) ∧
    (∀ (d : ResourceData) (s : σ), (resourceArmWebSourceControlsCreate m d s).outcome = .ok →
      ∃ id, followUpIdentifier m d s = some id ∧
        (resourceArmWebSourceControlsCreate m d s).d.Id = id) ∧
    (∀ (op : Op) (d : ResourceData) (s : σ),
      (op = .Read ∨ op = .Delete ∨ (op.run m d s).outcome ≠ .ok) →
        (op.run m d s).d.Id = d.Id) ∧
    (∀ (op : Op) (d : ResourceData) (s : σ),
      op ≠ .Create → (op.run m d s).d.Id ≠ d.Id →
        op = .Update ∧ (resourceArmWebSourceControlsDelete m d s).outcome = .ok ∧
        (resourceArmWebSourceControlsCreate m (resourceArmWebSourceControlsDelete m d s).d
          (resourceArmWebSourceControlsDelete m d s).remote).outcome = .ok) := by
  have ht := steps_tracked m rs (Entity.absent s0) (absent_tracked s0)
  refine ⟨fun hf => (ht.1 hf).1, ht.2, ⟨fun hne => ?_, fun hset => ?_⟩,
    fun d s => create_ok_identifier m d s, fun op d s => run_keeps_id m op d s,
    fun op d s => run_changes_id m op d s⟩
  · cases hc : (Entity.steps m (Entity.absent s0) rs).created with
    | false => exact absurd (ht.1 hc).1 hne
    | true =>
      obtain ⟨id, hid, hset⟩ := ht.2 hc
      exact ⟨rfl, id, hid, fun h0 => hne (hset.trans h0)⟩
  · obtain ⟨hc, id, hid, hne⟩ := hset
    obtain ⟨id2, hid2, hset2⟩ := ht.2 hc
    rw [hid] at hid2
    cases hid2
    rw [hset2]
    exact hne

/-- C8 amended, on a concrete run: Create, Read, a failed Update and Delete
against the scripted service leave the identifier the Create was handed. -/
theorem remote_id_lifecycle_witness :
    (Entity.steps scriptedMeta
        (Entity.absent { get := [.ok (responseWithID (sourceControlID "rg1" "app1")),
                                 .ok emptyResponse],
                         delete := [some ⟨"409 Conflict"⟩] })
        [⟨.Create, some exampleConfig⟩, ⟨.Read, none⟩, ⟨.Update, some exampleConfig⟩,
         ⟨.Delete, none⟩]).created = true ∧
    (Entity.steps scriptedMeta
        (Entity.absent { get := [.ok (responseWithID (sourceControlID "rg1" "app1")),
                                 .ok emptyResponse],
                         delete := [some ⟨"409 Conflict"⟩] })
        [⟨.Create, some exampleConfig⟩, ⟨.Read, none⟩, ⟨.Update, some exampleConfig⟩,
         ⟨.Delete, none⟩]).d.Id ≠ "" :=
  ⟨by decide,
   (remote_id_lifecycle scriptedMeta
      { get := [.ok (responseWithID (sourceControlID "rg1" "app1")), .ok emptyResponse],
        delete := [some ⟨"409 Conflict"⟩] }
      [⟨.Create, some exampleConfig⟩, ⟨.Read, none⟩, ⟨.Update, some exampleConfig⟩,
       ⟨.Delete, none⟩]).2.2.1.mpr
      ⟨by decide, sourceControlID "rg1" "app1", by decide, by decide⟩⟩

end SourceControls
